import Mathlib

/-!
# passport-ubcshib — verification of the attribute-mapping and
environment-resolution core

Shallow embedding of the repository's own logic (`index.js` and
`lib/attributes.js`): JavaScript objects are association lists with unique
string keys, JavaScript values are a small inductive with a truthiness
predicate, fallible code returns `Except`/`Option`.
-/

set_option linter.unusedVariables false

/-- A JavaScript value as it appears in SAML profiles and option objects:
strings, arrays of strings (multi-valued attributes), numbers, booleans,
`null`, `undefined`, and nested plain objects. -/
inductive JSValue where
  | str (s : String)
  | arr (xs : List String)
  | num (n : Int)
  | bool (b : Bool)
  | null
  | undefined
  | obj (fields : List (String × JSValue))

/-- A JavaScript object: an association list with (by construction) unique
string keys, kept in insertion order as JS does for non-index keys. -/
abbrev JSObj : Type := List (String × JSValue)

/-- JavaScript truthiness of a value. Objects and arrays are always truthy;
`""`, `0`, `false`, `null` and `undefined` are falsy. -/
def jsTruthy : JSValue → Bool
  | .str s => s ≠ ""
  | .arr _ => true
  | .num n => n ≠ 0
  | .bool b => b
  | .null => false
  | .undefined => false
  | .obj _ => true

/-- Object property lookup, `o[k]` as an `Option`. -/
def alookup {α : Type} : List (String × α) → String → Option α
  | [], _ => none
  | (k', v) :: rest, k => if k' = k then some v else alookup rest k

/-- Object property assignment `o[k] = v`: update in place when the key is
present (JS keeps the original insertion position), append otherwise. -/
def aset {α : Type} : List (String × α) → String → α → List (String × α)
  | [], k, v => [(k, v)]
  | (k', v') :: rest, k, v =>
      if k' = k then (k, v) :: rest else (k', v') :: aset rest k v

/-- `o[k]` as JavaScript evaluates it: `undefined` when the key is absent. -/
def objGet (o : JSObj) (k : String) : JSValue :=
  (alookup o k).getD JSValue.undefined

/-! ## `lib/attributes.js` -/

/-- The wire-identifier-to-friendly-name dictionary `ATTRIBUTE_MAPPINGS`,
in source order (the MACE entry for `ubcEduCwlPuid` precedes the OID one). -/
def ATTRIBUTE_MAPPINGS : List (String × String) :=
  [ ("urn:mace:dir:attribute-def:ubcEduCwlPuid", "ubcEduCwlPuid"),
    ("urn:oid:1.3.6.1.4.1.60.6.1.6", "ubcEduCwlPuid"),
    ("urn:oid:1.3.6.1.4.1.5923.1.1.1.1", "eduPersonAffiliation"),
    ("urn:oid:0.9.2342.19200300.100.1.3", "mail"),
    ("urn:oid:2.5.4.4", "sn"),
    ("urn:oid:2.5.4.42", "givenName"),
    ("urn:oid:2.16.840.1.113730.3.1.241", "displayName") ]

/-- `getFriendlyName(oid)`: `ATTRIBUTE_MAPPINGS[oid] || oid` — the friendly
name when a (truthy) dictionary entry exists, the input otherwise. -/
def getFriendlyName (oid : String) : String :=
  match alookup ATTRIBUTE_MAPPINGS oid with
  | some f => if f = "" then oid else f
  | none => oid

/-- The reverse mapping `friendlyToOid` that `mapAttributes` builds on each
call: `forEach` of `aset`, so a later dictionary entry for the same friendly
name overwrites an earlier one (last-registered wins). -/
def friendlyToOid : List (String × String) :=
  ATTRIBUTE_MAPPINGS.foldl (fun acc p => aset acc p.2 p.1) []

/-- One iteration of the `requestedAttributes.forEach` loop in
`mapAttributes`: `if (oid && samlResponse[oid]) … else if
(samlResponse[friendlyName]) … else` skip. -/
def mapAttributesStep (samlResponse : JSObj) (acc : JSObj)
    (friendlyName : String) : JSObj :=
  match alookup friendlyToOid friendlyName with
  | some oid =>
      if oid ≠ "" && jsTruthy (objGet samlResponse oid) then
        aset acc friendlyName (objGet samlResponse oid)
      else if jsTruthy (objGet samlResponse friendlyName) then
        aset acc friendlyName (objGet samlResponse friendlyName)
      else acc
  | none =>
      if jsTruthy (objGet samlResponse friendlyName) then
        aset acc friendlyName (objGet samlResponse friendlyName)
      else acc

/-- `mapAttributes(samlResponse, requestedAttributes)` from
`lib/attributes.js`. The `!samlResponse` guard is not modelled because an
object argument is always truthy in JS; a null/undefined
`requestedAttributes` falls into the same branch as the empty list, as in
the source (`!requestedAttributes || requestedAttributes.length === 0`). -/
def mapAttributes (samlResponse : JSObj) (requestedAttributes : List String) :
    JSObj :=
  if requestedAttributes = [] then
    samlResponse.foldl (fun acc p => aset acc (getFriendlyName p.1) p.2) []
  else
    requestedAttributes.foldl (mapAttributesStep samlResponse) []

/-! ## `index.js` — environment configuration -/

/-- The URL triple of one deployment tier. -/
structure EnvUrls where
  entryPoint : String
  logoutUrl : String
  metadataUrl : String
deriving DecidableEq, Repr

/-- `UBC_CONFIG.LOCAL`. -/
def ubcConfigLocal : EnvUrls where
  entryPoint := "http://localhost:8080/simplesaml/saml2/idp/SSOService.php"
  logoutUrl := "http://localhost:8080/simplesaml/saml2/idp/SingleLogoutService.php"
  metadataUrl := "http://localhost:8080/simplesaml/saml2/idp/metadata.php"

/-- `UBC_CONFIG.STAGING`. -/
def ubcConfigStaging : EnvUrls where
  entryPoint := "https://authentication.stg.id.ubc.ca/idp/profile/SAML2/Redirect/SSO"
  logoutUrl := "https://authentication.stg.id.ubc.ca/idp/profile/Logout"
  metadataUrl := "https://authentication.stg.id.ubc.ca/idp/shibboleth"

/-- `UBC_CONFIG.PRODUCTION`. -/
def ubcConfigProduction : EnvUrls where
  entryPoint := "https://authentication.ubc.ca/idp/profile/SAML2/Redirect/SSO"
  logoutUrl := "https://authentication.ubc.ca/idp/profile/Logout"
  metadataUrl := "https://authentication.ubc.ca/idp/shibboleth"

/-- The `UBC_CONFIG` constant keyed by tier name. -/
def UBC_CONFIG : List (String × EnvUrls) :=
  [ ("LOCAL", ubcConfigLocal),
    ("STAGING", ubcConfigStaging),
    ("PRODUCTION", ubcConfigProduction) ]

/-- The environment variables the module reads, `undefined` when unset. -/
structure ProcessEnv where
  samlEnvironment : Option String := none
  samlLogoutUrl : Option String := none

/-- JS `opt || dflt` for an optional string: the string when present and
truthy (non-empty), the default otherwise. -/
def jsOrStr (opt : Option String) (dflt : String) : String :=
  match opt with
  | some s => if s = "" then dflt else s
  | none => dflt

/-- Truthiness of an optional string (an unset/empty value is falsy). -/
def strTruthy (opt : Option String) : Bool :=
  match opt with
  | some s => s ≠ ""
  | none => false

/-- `toUpperCase()`: uppercase every character. This is `String.toUpper`
(which maps `Char.toUpper` over the string) stated over `data` so that it
evaluates by kernel reduction. -/
def toUpperStr (s : String) : String :=
  String.mk (s.data.map Char.toUpper)

/-- `(process.env.SAML_ENVIRONMENT || 'STAGING').toUpperCase()` — the
environment-name normalization used by both the constructor and `logout`. -/
def resolveEnvName (samlEnvironment : Option String) : String :=
  toUpperStr (jsOrStr samlEnvironment "STAGING")

/-- `UBC_CONFIG[environment] || UBC_CONFIG.STAGING` — the constructor's
environment resolution, falling back to STAGING on an unrecognized name. -/
def resolveUbcConfig (samlEnvironment : Option String) : EnvUrls :=
  (alookup UBC_CONFIG (resolveEnvName samlEnvironment)).getD ubcConfigStaging

/-! ## `index.js` — certificate extraction

`extractCertFromMetadata` matches the regular expression
`/<ds:X509Certificate[^>]*>([A-Za-z0-9+\/=]+)<\/ds:X509Certificate>/`
against the metadata and returns capture group 1, throwing when there is no
match. The regex is embedded as a character-level matcher: at each position,
in leftmost order, the literal open tag, then a maximal run of
non-`'>'` characters followed by `'>'`, then a maximal non-empty run of
base64 characters (the capture), then the literal close tag. Because the
base64 class excludes `'>'` and `'<'`, the greedy runs never backtrack, so
the matcher below is the regex's exact semantics. -/

/-- Characters matched by the class `[A-Za-z0-9+/=]`. -/
def isBase64Char (c : Char) : Bool :=
  c.isAlpha || c.isDigit || c = '+' || c = '/' || c = '='

/-- The literal `<ds:X509Certificate` that opens the matched element. -/
def certOpenTag : List Char := "<ds:X509Certificate".data

/-- The literal `</ds:X509Certificate>` that closes the matched element. -/
def certCloseTag : List Char := "</ds:X509Certificate>".data

/-- Strip an expected leading literal, `none` when the input does not start
with it. -/
def stripLit : List Char → List Char → Option (List Char)
  | [], s => some s
  | _ :: _, [] => none
  | p :: ps, c :: cs => if p = c then stripLit ps cs else none

/-- Try to match the certificate regex anchored at the head of `s`,
returning capture group 1 on success. -/
def certMatchAt (s : List Char) : Option (List Char) :=
  match stripLit certOpenTag s with
  | none => none
  | some afterOpen =>
      match afterOpen.dropWhile (fun c => c ≠ '>') with
      | [] => none
      | _ :: afterGt =>
          let content := afterGt.takeWhile isBase64Char
          if content = [] then none
          else
            match stripLit certCloseTag (afterGt.dropWhile isBase64Char) with
            | none => none
            | some _ => some content

/-- Leftmost match of the certificate regex, as JS `String.match` finds it. -/
def certFindFirst : List Char → Option (List Char)
  | [] => none
  | c :: rest =>
      match certMatchAt (c :: rest) with
      | some content => some content
      | none => certFindFirst rest

/-- Whether the open-tag literal occurs anywhere in `s` (a necessary
condition for the regex to match). -/
def containsCertOpenTag : List Char → Bool
  | [] => false
  | c :: rest => (stripLit certOpenTag (c :: rest)).isSome || containsCertOpenTag rest

/-- Whether the open-tag literal occurs at no position of `pre ++ rest`
that starts inside `pre` — i.e. the document's first certificate open tag
is not before `rest`. -/
def noOpenInPrefix : List Char → List Char → Bool
  | [], _ => true
  | c :: cs, rest =>
      !(stripLit certOpenTag (c :: (cs ++ rest))).isSome &&
        noOpenInPrefix cs rest

/-- `extractCertFromMetadata(metadataXml)`: the first regex match's capture
group, or the thrown `'No X509Certificate found in IdP metadata'` error. -/
def extractCertFromMetadata (metadataXml : String) : Except String String :=
  match certFindFirst metadataXml.data with
  | some content => Except.ok (String.mk content)
  | none => Except.error "No X509Certificate found in IdP metadata"

/-! ## `index.js` — `UBCStrategy` constructor -/

/-- `loadPrivateKey(keyPath)`: `null` for a falsy path, otherwise the file's
content, wrapping a read failure in the descriptive error that includes the
path. The filesystem is passed in as `fs`. -/
def loadPrivateKey (fs : String → Except String String)
    (keyPath : Option String) : Except String (Option String) :=
  match keyPath with
  | none => Except.ok none
  | some p =>
      if p = "" then Except.ok none
      else
        match fs p with
        | Except.ok content => Except.ok (some content)
        | Except.error msg =>
            Except.error ("Failed to load private key from " ++ p ++ ": " ++ msg)

/-- The application-supplied options object; every field is optional at the
JS level (`none` = absent/undefined). -/
structure StrategyOptions where
  entryPoint : Option String := none
  logoutUrl : Option String := none
  issuer : Option String := none
  callbackUrl : Option String := none
  privateKeyPath : Option String := none
  signatureAlgorithm : Option String := none
  digestAlgorithm : Option String := none
  validateInResponseTo : Option Bool := none
  acceptedClockSkewMs : Option Int := none
  cert : Option String := none
  authnRequestBinding : Option String := none
  identifierFormat : Option String := none
  attributeConfig : Option (List String) := none
  enableSLO : Option Bool := none
  metadataUrl : Option String := none

/-- `options.identifierFormat || null`. -/
def jsOrNull (opt : Option String) : Option String :=
  if strTruthy opt then opt else none

/-- The `samlOptions` object handed to the parent SAML strategy. -/
structure SamlOptions where
  entryPoint : String
  logoutUrl : String
  issuer : Option String
  callbackUrl : Option String
  privateKey : Option String
  decryptionPvk : Option String
  signatureAlgorithm : String
  digestAlgorithm : String
  validateInResponseTo : Bool
  acceptedClockSkewMs : Int
  cert : String
  authnRequestBinding : String
  identifierFormat : Option String
deriving DecidableEq, Repr

/-- The `ubcOptionsToStore` object kept on the strategy instance. -/
structure UbcOptions where
  attributeConfig : List String
  enableSLO : Bool
  metadataUrl : String
  environment : String
  cert : Option String
deriving DecidableEq, Repr

/-- A successfully constructed `UBCStrategy` instance.
`fetchCertificateTriggered` records whether the constructor's trailing
`if (!samlOptions.cert && this.ubcOptions.metadataUrl)` guard fired and
`_fetchCertificate()` was started. -/
structure UBCStrategy where
  samlOptions : SamlOptions
  ubcOptions : UbcOptions
  name : String
  fetchCertificateTriggered : Bool
deriving DecidableEq, Repr

/-- The message of the error thrown by the `cert:` field initializer when
`options.cert` is falsy. -/
def certRequiredError : String :=
  "SAML certificate is required. Either provide options.cert directly, or set up certificate fetching from IdP metadata."

/-- The `UBCStrategy` constructor. `verify` records whether a verify
callback was passed; `fs` is the filesystem used for key loading;
`Except.error` models a synchronously thrown exception. Field initializers
are evaluated in source order, so the private-key reads happen before the
`cert:` initializer's throw. The parent `super(...)` call belongs to the
external SAML engine and is modelled as non-throwing. -/
def constructStrategy : (String → Except String String) → ProcessEnv →
    Option StrategyOptions → Bool → Except String UBCStrategy
  | _, _, none, _ => Except.error "Options must be provided to UBCStrategy"
  | _, _, some _, false =>
      Except.error "Verify callback must be provided to UBCStrategy"
  | fs, env, some opts, true =>
      let environment := resolveEnvName env.samlEnvironment
      let ubcConfig := resolveUbcConfig env.samlEnvironment
      match
          (if strTruthy opts.privateKeyPath then
            loadPrivateKey fs opts.privateKeyPath
          else Except.ok none) with
        | Except.error e => Except.error e
        | Except.ok privateKey =>
            match
              (if strTruthy opts.privateKeyPath then
                loadPrivateKey fs opts.privateKeyPath
              else Except.ok none) with
            | Except.error e => Except.error e
            | Except.ok decryptionPvk =>
                if strTruthy opts.cert = false then
                  Except.error certRequiredError
                else
                  let samlOptions : SamlOptions :=
                    { entryPoint := jsOrStr opts.entryPoint ubcConfig.entryPoint
                      logoutUrl := jsOrStr opts.logoutUrl ubcConfig.logoutUrl
                      issuer := opts.issuer
                      callbackUrl := opts.callbackUrl
                      privateKey := privateKey
                      decryptionPvk := decryptionPvk
                      signatureAlgorithm := jsOrStr opts.signatureAlgorithm "sha256"
                      digestAlgorithm := jsOrStr opts.digestAlgorithm "sha256"
                      validateInResponseTo := !(opts.validateInResponseTo == some false)
                      acceptedClockSkewMs := opts.acceptedClockSkewMs.getD 0
                      cert := jsOrStr opts.cert ""
                      authnRequestBinding :=
                        jsOrStr opts.authnRequestBinding
                          "urn:oasis:names:tc:SAML:2.0:bindings:HTTP-Redirect"
                      identifierFormat := jsOrNull opts.identifierFormat }
                  let ubcOptions : UbcOptions :=
                    { attributeConfig := opts.attributeConfig.getD []
                      enableSLO := !(opts.enableSLO == some false)
                      metadataUrl := jsOrStr opts.metadataUrl ubcConfig.metadataUrl
                      environment := environment
                      cert := opts.cert }
                  Except.ok
                    { samlOptions := samlOptions
                      ubcOptions := ubcOptions
                      name := "ubcshib"
                      fetchCertificateTriggered :=
                        decide (samlOptions.cert = "") &&
                          decide (ubcOptions.metadataUrl ≠ "") }

/-- Whether a construction outcome started the asynchronous certificate
fetch (`false` when the constructor threw). -/
def constructionTriggersFetch (r : Except String UBCStrategy) : Bool :=
  match r with
  | Except.ok s => s.fetchCertificateTriggered
  | Except.error _ => false

/-! ## `index.js` — the wrapped verify callback -/

/-- `{...profile}`: a shallow copy built by inserting every entry in
iteration order. -/
def spreadCopy (o : JSObj) : JSObj :=
  o.foldl (fun acc p => aset acc p.1 p.2) []

/-- The `mappedProfile` that `wrappedVerify` hands to the application's
verify callback: a copy of the profile, with an `attributes` field holding
`mapAttributes(profile, attributeConfig)` added only when
`attributeConfig.length > 0`. -/
def wrappedVerifyProfile (attributeConfig : List String) (profile : JSObj) :
    JSObj :=
  let mappedProfile := spreadCopy profile
  if attributeConfig.length > 0 then
    aset mappedProfile "attributes"
      (JSValue.obj (mapAttributes profile attributeConfig))
  else mappedProfile

/-- `wrappedVerify(profile, done)`: calls the original `verify` with the
mapped profile and the untouched `done`, so the application callback's
result — of any type `α` — is whatever `verify` produces. -/
def wrappedVerify {α : Type} (verify : JSObj → α)
    (attributeConfig : List String) (profile : JSObj) : α :=
  verify (wrappedVerifyProfile attributeConfig profile)

/-! ## `index.js` — the `logout` middleware -/

/-- `process.env.SAML_LOGOUT_URL || UBC_CONFIG[(process.env.SAML_ENVIRONMENT
|| 'STAGING').toUpperCase()].logoutUrl` — `none` models the `TypeError`
thrown when the tier name is unrecognized (`UBC_CONFIG[…]` is `undefined`
and `.logoutUrl` faults); note the missing `|| UBC_CONFIG.STAGING` fallback
that the constructor's resolution has. -/
def resolveLogoutUrl (env : ProcessEnv) : Option String :=
  if strTruthy env.samlLogoutUrl then env.samlLogoutUrl
  else (alookup UBC_CONFIG (resolveEnvName env.samlEnvironment)).map EnvUrls.logoutUrl

/-- What one invocation of the `logout(returnUrl)` middleware does. -/
structure LogoutOutcome where
  sessionCleared : Bool
  redirectTo : String
deriving DecidableEq, Repr

/-- The `logout(returnUrl)` middleware body. The `logoutUrl` resolution runs
first; on an unrecognized tier it throws (`none`) before `req.logout`, so
the session is not cleared. Otherwise `req.logout` clears the session and
the response redirects to `finalUrl = logoutUrl` — the source never reads
`returnUrl` after binding it, and never consults the SLO flag. -/
def logout (returnUrl : String) (env : ProcessEnv) : Option LogoutOutcome :=
  match resolveLogoutUrl env with
  | none => none
  | some url => some { sessionCleared := true, redirectTo := url }

/-! ## Decidable side conditions used in theorem statements -/

/-- Whether a construction outcome is a constructed strategy rather than a
thrown error. -/
def constructionSucceeds (r : Except String UBCStrategy) : Bool :=
  match r with
  | Except.ok _ => true
  | Except.error _ => false

/-- Neither read the `forEach` body of `mapAttributes` performs for a
requested `name` — `samlResponse[friendlyToOid[name]]` (when the reverse
lookup resolves) and `samlResponse[name]` — yields a truthy value. -/
def noTruthyBinding (raw : JSObj) (name : String) : Bool :=
  (match alookup friendlyToOid name with
   | some oid => !(jsTruthy (objGet raw oid))
   | none => true) && !(jsTruthy (objGet raw name))

/-- Neither the reverse-resolved wire identifier (when it resolves) nor the
verbatim `name` is a key of `raw` at all. -/
def keyAbsentEverywhere (raw : JSObj) (name : String) : Bool :=
  (match alookup friendlyToOid name with
   | some oid => (alookup raw oid).isNone
   | none => true) && (alookup raw name).isNone

/-- At least one of the keys the `forEach` body would read for `name` — the
reverse-resolved wire identifier or the verbatim `name` — is present in
`raw`. -/
def boundInRaw (raw : JSObj) (name : String) : Bool :=
  (match alookup friendlyToOid name with
   | some oid => (alookup raw oid).isSome
   | none => false) || (alookup raw name).isSome

/-! # Theorems -/

/-! ## Association-list lemmas -/

theorem alookup_aset {α : Type} (o : List (String × α)) (k : String) (v : α)
    (k' : String) :
    alookup (aset o k v) k' = if k = k' then some v else alookup o k' := by
  induction o with
  | nil => simp [aset, alookup]
  | cons p rest ih =>
      obtain ⟨pk, pv⟩ := p
      by_cases hpk : pk = k
      · subst hpk
        by_cases hk' : pk = k' <;> simp [aset, alookup, hk']
      · simp only [aset, if_neg hpk, alookup, ih]
        by_cases hk' : pk = k'
        · subst hk'
          simp [Ne.symm hpk]
        · simp [hk']

theorem alookup_mem {α : Type} {o : List (String × α)} {k : String} {v : α}
    (h : alookup o k = some v) : (k, v) ∈ o := by
  induction o with
  | nil => simp [alookup] at h
  | cons p rest ih =>
      obtain ⟨pk, pv⟩ := p
      by_cases hpk : pk = k
      · subst hpk
        simp only [alookup, if_pos rfl, if_true, Option.some.injEq] at h
        rw [← h]
        exact List.mem_cons_self _ _
      · simp only [alookup, if_neg hpk] at h
        exact List.mem_cons_of_mem _ (ih h)

theorem alookup_append_of_none {α : Type} {l₁ : List (String × α)}
    (l₂ : List (String × α)) {k : String} (h : alookup l₁ k = none) :
    alookup (l₁ ++ l₂) k = alookup l₂ k := by
  induction l₁ with
  | nil => simp
  | cons p rest ih =>
      obtain ⟨pk, pv⟩ := p
      by_cases hpk : pk = k
      · simp [alookup, hpk] at h
      · simp only [alookup, if_neg hpk] at h
        simpa [alookup, hpk] using ih h

theorem aset_eq_append {α : Type} {o : List (String × α)} {k : String}
    (v : α) (h : alookup o k = none) : aset o k v = o ++ [(k, v)] := by
  induction o with
  | nil => simp [aset]
  | cons p rest ih =>
      obtain ⟨pk, pv⟩ := p
      by_cases hpk : pk = k
      · simp [alookup, hpk] at h
      · simp only [alookup, if_neg hpk] at h
        simp [aset, hpk, ih h]

/-! ## Claims about construction, environment resolution and logout -/

/-- C2: false on the code. The `logout(returnUrl)` middleware never reads
`returnUrl` and never consults the SLO flag: invoked as `logout('/bye')`
with the default (STAGING) environment it clears the session but redirects
to the IdP logout endpoint, not `/bye`; more generally its outcome is
independent of the return URL. This contradicts the middleware's own JSDoc
(`returnUrl - URL to redirect to after logout`) and its inline comment
(`If SLO is enabled, redirect to IdP logout, otherwise just redirect`). -/
theorem logout_ignores_returnUrl_and_slo :
    logout "/bye" {} =
      some { sessionCleared := true,
             redirectTo := "https://authentication.stg.id.ubc.ca/idp/profile/Logout" } ∧
    ∀ (r r' : String) (env : ProcessEnv), logout r env = logout r' env :=
  ⟨rfl, fun _ _ _ => rfl⟩

/-- C5: the constructor's environment resolution is case-insensitive
(uppercasing first), total, and falls back to STAGING when the name is
unset or unrecognized — but the `logout` middleware's resolution of the
same environment variable omits the `|| UBC_CONFIG.STAGING` fallback, so an
unrecognized tier name makes it throw (`none` here models the `TypeError`
on reading `.logoutUrl` of `undefined`), contradicting the claim that
resolution never throws at every place environments are resolved. -/
theorem environment_resolution_spec :
    resolveLogoutUrl { samlEnvironment := some "DEV" } = none ∧
    resolveUbcConfig (some "DEV") = ubcConfigStaging ∧
    resolveUbcConfig none = ubcConfigStaging ∧
    resolveUbcConfig (some "staging") = ubcConfigStaging ∧
    (∀ s t : String, s ≠ "" → t ≠ "" → toUpperStr s = toUpperStr t →
      resolveUbcConfig (some s) = resolveUbcConfig (some t)) := by
  refine ⟨rfl, rfl, rfl, rfl, ?_⟩
  intro s t hs ht h
  simp only [resolveUbcConfig, resolveEnvName, jsOrStr, if_neg hs, if_neg ht, h]

/-- Witness for `environment_resolution_spec`: the case-insensitivity
conjunct applied at the concrete pair `staging` / `Staging`. -/
theorem environment_resolution_spec_witness :
    "staging" ≠ "" ∧ "Staging" ≠ "" ∧
    toUpperStr "staging" = toUpperStr "Staging" ∧
    resolveUbcConfig (some "staging") = resolveUbcConfig (some "Staging") :=
  ⟨by decide, by decide, by decide,
    environment_resolution_spec.2.2.2.2 "staging" "Staging" (by decide)
      (by decide) (by decide)⟩

/-- C1: false on the code. The `cert:` field initializer throws
synchronously whenever `options.cert` is falsy, so construction without a
certificate fails with the `SAML certificate is required…` error instead of
succeeding and fetching from metadata; consequently the guard
`if (!samlOptions.cert && this.ubcOptions.metadataUrl)` can never fire and
`_fetchCertificate()` is dead code — no construction outcome ever triggers
the asynchronous fetch. This contradicts the README (`The strategy
automatically fetches the IdP's public certificate from the metadata
endpoint. No configuration is needed…`) and `_fetchCertificate`'s own
comments. -/
theorem construct_without_cert_throws :
    constructStrategy (fun _ => Except.error "ENOENT") {}
      (some { issuer := some "https://myapp.example.com/shibboleth",
              callbackUrl := some "https://myapp.example.com/auth/ubcshib/callback" })
      true = Except.error certRequiredError ∧
    ∀ (fs : String → Except String String) (env : ProcessEnv)
      (options : Option StrategyOptions) (verify : Bool),
      constructionTriggersFetch (constructStrategy fs env options verify) = false := by
  refine ⟨rfl, ?_⟩
  intro fs env options verify
  cases options with
  | none => rfl
  | some opts =>
      cases verify with
      | false => rfl
      | true =>
          simp only [constructStrategy]
          cases h1 : (if strTruthy opts.privateKeyPath then
              loadPrivateKey fs opts.privateKeyPath else Except.ok none) with
          | error e => rfl
          | ok privateKey =>
              cases hc : opts.cert with
              | none => simp [strTruthy, constructionTriggersFetch]
              | some c =>
                  by_cases hce : c = ""
                  · subst hce
                    simp [strTruthy, constructionTriggersFetch]
                  · simp [strTruthy, hce, constructionTriggersFetch, jsOrStr]

/-- C4 counterexample: construction with an options object that lacks both
the issuer and the callback URL (but supplies a certificate) succeeds — no
synchronous configuration error is raised for the missing fields. -/
theorem construct_missing_issuer_succeeds :
    constructionSucceeds
      (constructStrategy (fun _ => Except.error "ENOENT") {}
        (some { cert := some "CERTDATA" }) true) = true ∧
    ({ cert := some "CERTDATA" } : StrategyOptions).issuer = none ∧
    ({ cert := some "CERTDATA" } : StrategyOptions).callbackUrl = none :=
  ⟨rfl, rfl, rfl⟩

/-- C4 (amended): the constructor validates only the presence of the
options object and the verify callback; a missing issuer or callback URL is
not detected — given a truthy certificate (and no private-key path to
load), construction succeeds and the absent issuer/callbackUrl values are
passed through unchanged into the SAML-engine configuration. -/
theorem construct_passes_issuer_through (fs : String → Except String String)
    (env : ProcessEnv) (opts : StrategyOptions)
    (hcert : strTruthy opts.cert = true)
    (hpk : strTruthy opts.privateKeyPath = false) :
    (constructStrategy fs env (some opts) true).map
        (fun s => s.samlOptions.issuer) = Except.ok opts.issuer ∧
    (constructStrategy fs env (some opts) true).map
        (fun s => s.samlOptions.callbackUrl) = Except.ok opts.callbackUrl := by
  constructor <;> simp [constructStrategy, hpk, hcert, Except.map]

/-- Witness for `construct_passes_issuer_through` at a concrete options
object with a certificate and nothing else. -/
theorem construct_passes_issuer_through_witness :
    strTruthy (some "CERTDATA") = true ∧
    strTruthy (none : Option String) = false ∧
    (constructStrategy (fun _ => Except.error "ENOENT") {}
        (some { cert := some "CERTDATA" }) true).map
      (fun s => s.samlOptions.issuer) = Except.ok none ∧
    (constructStrategy (fun _ => Except.error "ENOENT") {}
        (some { cert := some "CERTDATA" }) true).map
      (fun s => s.samlOptions.callbackUrl) = Except.ok none :=
  ⟨by decide, rfl,
    (construct_passes_issuer_through (fun _ => Except.error "ENOENT") {}
      { cert := some "CERTDATA" } (by decide) rfl).1,
    (construct_passes_issuer_through (fun _ => Except.error "ENOENT") {}
      { cert := some "CERTDATA" } (by decide) rfl).2⟩

/-! ## Lemmas about `mapAttributes` -/

theorem jsTruthy_objGet_of_alookup_none {raw : JSObj} {k : String}
    (h : alookup raw k = none) : jsTruthy (objGet raw k) = false := by
  simp [objGet, h, jsTruthy]

theorem mapAttributesStep_preserves_none (raw : JSObj) (name : String)
    (h : noTruthyBinding raw name = true) (acc : JSObj) (n : String)
    (hacc : alookup acc name = none) :
    alookup (mapAttributesStep raw acc n) name = none := by
  by_cases hn : n = name
  · subst hn
    unfold noTruthyBinding at h
    unfold mapAttributesStep
    cases hfo : alookup friendlyToOid n with
    | none =>
        rw [hfo] at h
        simp only [Bool.true_and, Bool.not_eq_true'] at h
        simp [h, hacc]
    | some oid =>
        rw [hfo] at h
        simp only [Bool.and_eq_true, Bool.not_eq_true'] at h
        simp [h.1, h.2, hacc]
  · unfold mapAttributesStep
    split
    · split_ifs <;> simp [alookup_aset, hn, hacc]
    · split_ifs <;> simp [alookup_aset, hn, hacc]

theorem foldl_mapAttributesStep_omits (raw : JSObj) (name : String)
    (h : noTruthyBinding raw name = true) :
    ∀ (requested : List String) (acc : JSObj), alookup acc name = none →
      alookup (List.foldl (mapAttributesStep raw) acc requested) name = none := by
  intro requested
  induction requested with
  | nil => intro acc hacc; exact hacc
  | cons n rest ih =>
      intro acc hacc
      exact ih _ (mapAttributesStep_preserves_none raw name h acc n hacc)

/-! ## Claims about `mapAttributes` -/

/-- C8: a requested friendly name for which the reverse-resolved wire
identifier is not a key of the raw attributes and which does not occur
verbatim as a key either is omitted entirely from the result of
`mapAttributes` — the key is absent, so there is no null/undefined
placeholder — and the call still succeeds (it is a total function). -/
theorem mapAttributes_omits_unmatched (raw : JSObj) (requested : List String)
    (name : String) (hmem : name ∈ requested)
    (habs : keyAbsentEverywhere raw name = true) :
    alookup (mapAttributes raw requested) name = none := by
  have hreq : ¬(requested = []) := by
    intro h
    subst h
    simp at hmem
  have hnt : noTruthyBinding raw name = true := by
    unfold keyAbsentEverywhere at habs
    unfold noTruthyBinding
    cases hfo : alookup friendlyToOid name with
    | none =>
        rw [hfo] at habs
        simp only [Bool.true_and, Option.isNone_iff_eq_none] at habs
        simp [jsTruthy_objGet_of_alookup_none habs]
    | some oid =>
        rw [hfo] at habs
        simp only [Bool.and_eq_true, Option.isNone_iff_eq_none] at habs
        simp [jsTruthy_objGet_of_alookup_none habs.1,
          jsTruthy_objGet_of_alookup_none habs.2]
  unfold mapAttributes
  rw [if_neg hreq]
  exact foldl_mapAttributesStep_omits raw name hnt requested [] rfl

/-- Witness for `mapAttributes_omits_unmatched`: requesting `mail` against
raw attributes that contain neither the mail OID nor a verbatim `mail` key
yields a result without a `mail` key. -/
theorem mapAttributes_omits_unmatched_witness :
    "mail" ∈ ["mail"] ∧
    keyAbsentEverywhere [("x", JSValue.str "1")] "mail" = true ∧
    alookup (mapAttributes [("x", JSValue.str "1")] ["mail"]) "mail" = none :=
  ⟨by decide, by rfl,
    mapAttributes_omits_unmatched [("x", JSValue.str "1")] ["mail"] "mail"
      (by decide) (by rfl)⟩

/-- C10: a requested friendly name whose reverse-resolved wire identifier
(or verbatim key) is present in the raw attributes but bound to a falsy
value (empty string, `0`, `false`, `null`) is omitted from the result even
though the key exists in the assertion — the `forEach` body tests
`samlResponse[oid]` / `samlResponse[friendlyName]` by truthiness, not key
membership. -/
theorem mapAttributes_omits_falsy_values (raw : JSObj)
    (requested : List String) (name : String) (hmem : name ∈ requested)
    (hbound : boundInRaw raw name = true)
    (hfalsy : noTruthyBinding raw name = true) :
    alookup (mapAttributes raw requested) name = none := by
  have hreq : ¬(requested = []) := by
    intro h
    subst h
    simp at hmem
  unfold mapAttributes
  rw [if_neg hreq]
  exact foldl_mapAttributesStep_omits raw name hfalsy requested [] rfl

/-- Witness for `mapAttributes_omits_falsy_values`: the mail OID is present
but bound to the empty string, and the result omits `mail`. -/
theorem mapAttributes_omits_falsy_values_witness :
    "mail" ∈ ["mail"] ∧
    boundInRaw [("urn:oid:0.9.2342.19200300.100.1.3", JSValue.str "")] "mail" = true ∧
    noTruthyBinding [("urn:oid:0.9.2342.19200300.100.1.3", JSValue.str "")] "mail" = true ∧
    alookup
      (mapAttributes [("urn:oid:0.9.2342.19200300.100.1.3", JSValue.str "")]
        ["mail"]) "mail" = none :=
  ⟨by decide, by rfl, by rfl,
    mapAttributes_omits_falsy_values
      [("urn:oid:0.9.2342.19200300.100.1.3", JSValue.str "")] ["mail"] "mail"
      (by decide) (by rfl) (by rfl)⟩

/-- C3 counterexample: the dictionary entry
`urn:mace:dir:attribute-def:ubcEduCwlPuid → ubcEduCwlPuid` is not recovered
by the reverse lookup (the later OID-format entry overwrote it), so
`mapAttributes({wireId: v}, [friendly])` returns `{}` rather than
`{friendly: v}`; and even for the selected entry, a falsy value is dropped
rather than returned. -/
theorem mapAttributes_roundtrip_counterexample :
    mapAttributes [("urn:mace:dir:attribute-def:ubcEduCwlPuid", JSValue.str "x")]
      ["ubcEduCwlPuid"] = [] ∧
    ("urn:mace:dir:attribute-def:ubcEduCwlPuid", "ubcEduCwlPuid") ∈ ATTRIBUTE_MAPPINGS ∧
    mapAttributes [("urn:oid:0.9.2342.19200300.100.1.3", JSValue.str "")]
      ["mail"] = [] ∧
    ("urn:oid:0.9.2342.19200300.100.1.3", "mail") ∈ ATTRIBUTE_MAPPINGS :=
  ⟨rfl, by decide, rfl, by decide⟩

/-- C3 (amended): for a dictionary entry `(wireId, friendly)` whose wire
identifier is the one the reverse lookup selects for `friendly` (the
last-registered entry; earlier wire identifiers for the same friendly name
are shadowed and not recovered) and a truthy value `v`,
`mapAttributes({wireId: v}, [friendly])` returns exactly `{friendly: v}`. -/
theorem mapAttributes_roundtrip_selected (wireId friendly : String)
    (v : JSValue) (hrev : alookup friendlyToOid friendly = some wireId)
    (hv : jsTruthy v = true) :
    mapAttributes [(wireId, v)] [friendly] = [(friendly, v)] := by
  have hmem : (friendly, wireId) ∈ friendlyToOid := alookup_mem hrev
  have hfl : friendlyToOid =
      [ ("ubcEduCwlPuid", "urn:oid:1.3.6.1.4.1.60.6.1.6"),
        ("eduPersonAffiliation", "urn:oid:1.3.6.1.4.1.5923.1.1.1.1"),
        ("mail", "urn:oid:0.9.2342.19200300.100.1.3"),
        ("sn", "urn:oid:2.5.4.4"),
        ("givenName", "urn:oid:2.5.4.42"),
        ("displayName", "urn:oid:2.16.840.1.113730.3.1.241") ] := by rfl
  have hne : wireId ≠ "" := by
    rw [hfl] at hmem
    simp only [List.mem_cons, List.mem_singleton, Prod.mk.injEq,
      List.not_mem_nil, or_false] at hmem
    rcases hmem with h | h | h | h | h | h <;>
      · rw [h.2]
        decide
  have hget : objGet [(wireId, v)] wireId = v := by
    simp [objGet, alookup]
  unfold mapAttributes
  rw [if_neg (by simp : ¬(([friendly] : List String) = []))]
  simp only [List.foldl]
  unfold mapAttributesStep
  rw [hrev]
  simp [hne, hv, hget, aset]

/-- Witness for `mapAttributes_roundtrip_selected` at the `mail` entry with
a truthy string value. -/
theorem mapAttributes_roundtrip_selected_witness :
    alookup friendlyToOid "mail" = some "urn:oid:0.9.2342.19200300.100.1.3" ∧
    jsTruthy (JSValue.str "a@ubc.ca") = true ∧
    mapAttributes [("urn:oid:0.9.2342.19200300.100.1.3", JSValue.str "a@ubc.ca")]
      ["mail"] = [("mail", JSValue.str "a@ubc.ca")] :=
  ⟨by rfl, by rfl,
    mapAttributes_roundtrip_selected "urn:oid:0.9.2342.19200300.100.1.3"
      "mail" (JSValue.str "a@ubc.ca") (by rfl) (by rfl)⟩

/-! ## Full pass-through mode (`mapAttributes(raw, [])`) -/

theorem foldl_translate (l : List (String × JSValue)) :
    ∀ acc : JSObj,
      (l.map (fun p => getFriendlyName p.1)).Nodup →
      (∀ p ∈ l, alookup acc (getFriendlyName p.1) = none) →
      List.foldl (fun acc p => aset acc (getFriendlyName p.1) p.2) acc l
        = acc ++ l.map (fun p => (getFriendlyName p.1, p.2)) := by
  induction l with
  | nil =>
      intro acc _ _
      simp
  | cons p rest ih =>
      intro acc hnd hdisj
      simp only [List.foldl, List.map]
      rw [aset_eq_append p.2 (hdisj p (List.mem_cons_self p rest))]
      rw [ih (acc ++ [(getFriendlyName p.1, p.2)])
        (by simpa using hnd.of_cons) ?_]
      · simp
      · intro q hq
        rw [alookup_append_of_none _ (hdisj q (List.mem_cons_of_mem p hq))]
        have hne : getFriendlyName p.1 ≠ getFriendlyName q.1 := by
          simp only [List.map, List.nodup_cons] at hnd
          intro hcontra
          exact hnd.1 (hcontra ▸ List.mem_map_of_mem (fun r => getFriendlyName r.1) hq)
        simp [alookup, hne]

/-- C7 counterexample: two raw keys (the MACE- and OID-format CWL PUID
identifiers) translate to the same friendly name, so the second raw entry
overwrites the first — the entry
`urn:mace:dir:attribute-def:ubcEduCwlPuid ↦ "a"` is dropped from the
result of the full pass-through call. -/
theorem mapAttributes_passthrough_counterexample :
    mapAttributes
      [ ("urn:mace:dir:attribute-def:ubcEduCwlPuid", JSValue.str "a"),
        ("urn:oid:1.3.6.1.4.1.60.6.1.6", JSValue.str "b") ] []
      = [("ubcEduCwlPuid", JSValue.str "b")] ∧
    alookup
      (mapAttributes
        [ ("urn:mace:dir:attribute-def:ubcEduCwlPuid", JSValue.str "a"),
          ("urn:oid:1.3.6.1.4.1.60.6.1.6", JSValue.str "b") ] [])
      (getFriendlyName "urn:mace:dir:attribute-def:ubcEduCwlPuid")
      ≠ some (JSValue.str "a") := by
  refine ⟨rfl, ?_⟩
  intro h
  have h1 : JSValue.str "b" = JSValue.str "a" := Option.some.inj h
  injection h1 with h2
  exact absurd h2 (by decide)

/-- C7 (amended): `mapAttributes(raw, [])` translates every raw key to its
friendly name (keys without a dictionary entry pass through unchanged) and
keeps every entry, provided no two raw keys translate to the same friendly
name; colliding keys are merged, the later entry overwriting the earlier
one. -/
theorem mapAttributes_passthrough (raw : JSObj)
    (hnd : (raw.map (fun p => getFriendlyName p.1)).Nodup) :
    mapAttributes raw [] = raw.map (fun p => (getFriendlyName p.1, p.2)) := by
  unfold mapAttributes
  rw [if_pos rfl]
  simpa using foldl_translate raw [] hnd (fun _ _ => rfl)

/-- Witness for `mapAttributes_passthrough`: a raw assertion with one
dictionary key and one unknown key translates to `mail` and passes the
unknown key through, dropping nothing. -/
theorem mapAttributes_passthrough_witness :
    (([ ("urn:oid:0.9.2342.19200300.100.1.3", JSValue.str "a"),
        ("custom", JSValue.str "b") ] : JSObj).map
      (fun p => getFriendlyName p.1)).Nodup ∧
    mapAttributes
      [ ("urn:oid:0.9.2342.19200300.100.1.3", JSValue.str "a"),
        ("custom", JSValue.str "b") ] []
      = [("mail", JSValue.str "a"), ("custom", JSValue.str "b")] :=
  ⟨by decide,
    mapAttributes_passthrough
      [ ("urn:oid:0.9.2342.19200300.100.1.3", JSValue.str "a"),
        ("custom", JSValue.str "b") ] (by decide)⟩

/-! ## Claims about the wrapped verify callback -/

/-- C6 counterexample: with an empty `attributeConfig` (its default), the
wrapped callback does not pass the assertion's attributes through the
mapper at all — the profile handed to the application callback is the plain
copy, it has no `attributes` field, while the mapper applied to the same
profile would have produced a non-empty translation. -/
theorem wrappedVerify_counterexample :
    wrappedVerify id []
        [("urn:oid:0.9.2342.19200300.100.1.3", JSValue.str "a@ubc.ca")]
      = [("urn:oid:0.9.2342.19200300.100.1.3", JSValue.str "a@ubc.ca")] ∧
    alookup
      (wrappedVerify id []
        [("urn:oid:0.9.2342.19200300.100.1.3", JSValue.str "a@ubc.ca")])
      "attributes" = none ∧
    mapAttributes
        [("urn:oid:0.9.2342.19200300.100.1.3", JSValue.str "a@ubc.ca")] []
      = [("mail", JSValue.str "a@ubc.ca")] ∧
    alookup
        (wrappedVerify id []
          [("urn:oid:0.9.2342.19200300.100.1.3", JSValue.str "a@ubc.ca")])
        "attributes"
      ≠ some (JSValue.obj (mapAttributes
          [("urn:oid:0.9.2342.19200300.100.1.3", JSValue.str "a@ubc.ca")] [])) := by
  refine ⟨rfl, rfl, rfl, ?_⟩
  intro h
  exact Option.noConfusion h

/-- C6 (amended): when the configuration requests at least one friendly
name, the wrapped callback invokes the application callback with the
profile copy whose `attributes` field is exactly
`mapAttributes(profile, requestedNames)`, and the application callback's
result — of arbitrary type — is relayed exactly; when the requested list is
empty the mapper is not invoked and the profile copy is handed over
without an `attributes` field being added. -/
theorem wrappedVerify_spec {α : Type} (verify : JSObj → α)
    (config : List String) (profile : JSObj) :
    (config ≠ [] →
      wrappedVerify verify config profile
        = verify (aset (spreadCopy profile) "attributes"
            (JSValue.obj (mapAttributes profile config))) ∧
      alookup (wrappedVerifyProfile config profile) "attributes"
        = some (JSValue.obj (mapAttributes profile config))) ∧
    (config = [] →
      wrappedVerify verify config profile = verify (spreadCopy profile)) := by
  constructor
  · intro hc
    have hlen : 0 < config.length := List.length_pos.mpr hc
    constructor
    · unfold wrappedVerify wrappedVerifyProfile
      rw [if_pos hlen]
    · unfold wrappedVerifyProfile
      rw [if_pos hlen, alookup_aset]
      simp
  · intro hc
    subst hc
    rfl

/-- Witness for `wrappedVerify_spec`: the non-empty-configuration conjunct
applied at `config = [mail]` and a one-attribute profile, with the
application callback being the identity. -/
theorem wrappedVerify_spec_witness :
    (["mail"] : List String) ≠ [] ∧
    wrappedVerify id ["mail"]
        [("urn:oid:0.9.2342.19200300.100.1.3", JSValue.str "a@ubc.ca")]
      = aset
          (spreadCopy
            [("urn:oid:0.9.2342.19200300.100.1.3", JSValue.str "a@ubc.ca")])
          "attributes"
          (JSValue.obj (mapAttributes
            [("urn:oid:0.9.2342.19200300.100.1.3", JSValue.str "a@ubc.ca")]
            ["mail"])) ∧
    alookup
        (wrappedVerifyProfile ["mail"]
          [("urn:oid:0.9.2342.19200300.100.1.3", JSValue.str "a@ubc.ca")])
        "attributes"
      = some (JSValue.obj (mapAttributes
          [("urn:oid:0.9.2342.19200300.100.1.3", JSValue.str "a@ubc.ca")]
          ["mail"])) :=
  ⟨by decide,
    ((wrappedVerify_spec id ["mail"]
        [("urn:oid:0.9.2342.19200300.100.1.3", JSValue.str "a@ubc.ca")]).1
      (by decide)).1,
    ((wrappedVerify_spec id ["mail"]
        [("urn:oid:0.9.2342.19200300.100.1.3", JSValue.str "a@ubc.ca")]).1
      (by decide)).2⟩

/-! ## Lemmas about certificate extraction -/

theorem stripLit_self_append (p r : List Char) : stripLit p (p ++ r) = some r := by
  induction p with
  | nil => rfl
  | cons c cs ih => simp [stripLit, ih]

theorem dropWhile_all_append (p : Char → Bool) (l : List Char) (c : Char)
    (r : List Char) (hl : ∀ a ∈ l, p a = true) (hc : p c = false) :
    List.dropWhile p (l ++ c :: r) = c :: r := by
  induction l with
  | nil => simp [List.dropWhile, hc]
  | cons a l ih =>
      have ha : p a = true := hl a (List.mem_cons_self a l)
      have ih' := ih (fun x hx => hl x (List.mem_cons_of_mem a hx))
      simp [List.dropWhile, ha, ih']

theorem takeWhile_all_append (p : Char → Bool) (l : List Char) (c : Char)
    (r : List Char) (hl : ∀ a ∈ l, p a = true) (hc : p c = false) :
    List.takeWhile p (l ++ c :: r) = l := by
  induction l with
  | nil => simp [List.takeWhile, hc]
  | cons a l ih =>
      have ha : p a = true := hl a (List.mem_cons_self a l)
      have ih' := ih (fun x hx => hl x (List.mem_cons_of_mem a hx))
      simp [List.takeWhile, ha, ih']

theorem isBase64Char_not_whitespace (c : Char) (h : isBase64Char c = true) :
    c.isWhitespace = false := by
  unfold Char.isWhitespace
  simp only [Bool.or_eq_false_iff, decide_eq_false_iff_not]
  refine ⟨⟨⟨?_, ?_⟩, ?_⟩, ?_⟩ <;>
    · rintro rfl
      exact absurd h (by decide)

theorem certMatchAt_wellFormed (attrs content post : List Char)
    (hattrs : ∀ a ∈ attrs, (a ≠ '>')) (hcontent : ¬(content = []))
    (hb64 : ∀ a ∈ content, isBase64Char a = true) :
    certMatchAt (certOpenTag ++ (attrs ++ ('>' ::
        (content ++ (certCloseTag ++ post))))) = some content := by
  have hdw1 : List.dropWhile (fun c => decide ¬(c = '>'))
      (attrs ++ ('>' :: (content ++ (certCloseTag ++ post))))
      = '>' :: (content ++ (certCloseTag ++ post)) :=
    dropWhile_all_append _ _ _ _
      (fun a ha => by simp [hattrs a ha]) (by decide)
  have hcons : certCloseTag ++ post
      = '<' :: ("/ds:X509Certificate>".data ++ post) := rfl
  have htw : List.takeWhile isBase64Char
      (content ++ (certCloseTag ++ post)) = content := by
    rw [hcons]
    exact takeWhile_all_append _ _ _ _ hb64 (by decide)
  have hdw2 : List.dropWhile isBase64Char
      (content ++ (certCloseTag ++ post)) = certCloseTag ++ post := by
    rw [hcons]
    exact dropWhile_all_append _ _ _ _ hb64 (by decide)
  unfold certMatchAt
  rw [stripLit_self_append]
  simp only [hdw1, htw, hdw2, stripLit_self_append, if_neg hcontent]

theorem certMatchAt_of_stripLit_none {s : List Char}
    (h : stripLit certOpenTag s = none) : certMatchAt s = none := by
  unfold certMatchAt
  rw [h]

theorem certFindFirst_skip (pre rest : List Char)
    (hpre : noOpenInPrefix pre rest = true) :
    certFindFirst (pre ++ rest) = certFindFirst rest := by
  induction pre with
  | nil => rfl
  | cons c cs ih =>
      unfold noOpenInPrefix at hpre
      rw [Bool.and_eq_true] at hpre
      have h1 : stripLit certOpenTag (c :: (cs ++ rest)) = none := by
        cases hs : stripLit certOpenTag (c :: (cs ++ rest)) with
        | none => rfl
        | some r =>
            rw [hs] at hpre
            simp at hpre
      have hm := certMatchAt_of_stripLit_none h1
      show certFindFirst (c :: (cs ++ rest)) = certFindFirst rest
      rw [show certFindFirst (c :: (cs ++ rest))
            = match certMatchAt (c :: (cs ++ rest)) with
              | some x => some x
              | none => certFindFirst (cs ++ rest) from rfl, hm]
      exact ih hpre.2

theorem certFindFirst_none (s : List Char)
    (h : containsCertOpenTag s = false) : certFindFirst s = none := by
  induction s with
  | nil => rfl
  | cons c rest ih =>
      unfold containsCertOpenTag at h
      rw [Bool.or_eq_false_iff] at h
      have hm : certMatchAt (c :: rest) = none := by
        unfold certMatchAt
        cases hs : stripLit certOpenTag (c :: rest) with
        | none => rfl
        | some r =>
            rw [hs] at h
            simp at h
      simp [certFindFirst, hm, ih h.2]

/-! ## Claims about certificate extraction -/

/-- C9 counterexample: a metadata document containing exactly one signing
certificate element whose base64 body is wrapped in newlines (as
line-wrapped PEM data in real metadata is) makes extraction fail with the
`no certificate found` error even though the certificate element is
present — the regex's `[A-Za-z0-9+/=]+` body cannot match across
whitespace, refuting `succeeds if and only if a certificate element is
present`. -/
theorem extractCert_whitespace_counterexample :
    extractCertFromMetadata
      "<md><ds:X509Certificate>\nQUJE\n</ds:X509Certificate></md>"
      = Except.error "No X509Certificate found in IdP metadata" ∧
    containsCertOpenTag
      "<md><ds:X509Certificate>\nQUJE\n</ds:X509Certificate></md>".data
      = true :=
  ⟨rfl, by decide⟩

/-- C9 (amended): applied to a metadata document whose first certificate
open tag starts an element with `'>'`-free attributes, a non-empty body of
base64 characters only (no embedded whitespace, as the regex requires), and
the close tag, `extractCertFromMetadata` returns exactly that certificate's
base64 content, which carries no surrounding (or any) whitespace; applied
to a document in which the open-tag literal never occurs (zero certificate
elements), it fails with the `No X509Certificate found in IdP metadata`
error. An element whose body contains whitespace is not matched and also
produces the not-found failure. -/
theorem extractCertFromMetadata_spec :
    (∀ pre attrs content post : List Char,
      noOpenInPrefix pre (certOpenTag ++ (attrs ++ ('>' ::
        (content ++ (certCloseTag ++ post))))) = true →
      attrs.all (fun c => !(c = '>')) = true →
      ¬(content = []) →
      content.all isBase64Char = true →
      extractCertFromMetadata
        (String.mk (pre ++ (certOpenTag ++ (attrs ++ ('>' ::
          (content ++ (certCloseTag ++ post)))))))
        = Except.ok (String.mk content) ∧
      content.all (fun c => !c.isWhitespace) = true) ∧
    (∀ xml : String, containsCertOpenTag xml.data = false →
      extractCertFromMetadata xml
        = Except.error "No X509Certificate found in IdP metadata") := by
  constructor
  · intro pre attrs content post hpre hattrs hcontent hb64
    have hattrs' : ∀ a ∈ attrs, (a ≠ '>') := by
      intro a ha
      have := (List.all_eq_true.mp hattrs) a ha
      simpa using this
    have hb64' : ∀ a ∈ content, isBase64Char a = true :=
      List.all_eq_true.mp hb64
    have hmatch := certMatchAt_wellFormed attrs content post hattrs'
      hcontent hb64'
    have hfind : certFindFirst
        (pre ++ (certOpenTag ++ (attrs ++ ('>' ::
          (content ++ (certCloseTag ++ post)))))) = some content := by
      rw [certFindFirst_skip pre _ hpre]
      have step : certFindFirst (certOpenTag ++ (attrs ++ ('>' ::
          (content ++ (certCloseTag ++ post)))))
          = match certMatchAt (certOpenTag ++ (attrs ++ ('>' ::
              (content ++ (certCloseTag ++ post))))) with
            | some c => some c
            | none => certFindFirst ("ds:X509Certificate".data ++ (attrs ++
                ('>' :: (content ++ (certCloseTag ++ post))))) := rfl
      rw [step, hmatch]
    constructor
    · unfold extractCertFromMetadata
      rw [show (String.mk (pre ++ (certOpenTag ++ (attrs ++ ('>' ::
          (content ++ (certCloseTag ++ post))))))).data
          = pre ++ (certOpenTag ++ (attrs ++ ('>' ::
            (content ++ (certCloseTag ++ post))))) from rfl]
      rw [hfind]
    · rw [List.all_eq_true]
      intro c hc
      simp [isBase64Char_not_whitespace c (hb64' c hc)]
  · intro xml h
    unfold extractCertFromMetadata
    rw [certFindFirst_none xml.data h]

/-- Witness for `extractCertFromMetadata_spec`: both conjuncts applied at
concrete documents — one with a single well-formed certificate element,
one with no certificate element at all. -/
theorem extractCertFromMetadata_spec_witness :
    (noOpenInPrefix "<md><x>data</x> ".data
      (certOpenTag ++ (" some=attrs".data ++ ('>' ::
        ("QUJDRA==".data ++ (certCloseTag ++ "</md>".data))))) = true) ∧
    (" some=attrs".data.all (fun c => !(c = '>')) = true) ∧
    ¬("QUJDRA==".data = []) ∧
    ("QUJDRA==".data.all isBase64Char = true) ∧
    extractCertFromMetadata
      (String.mk ("<md><x>data</x> ".data ++ (certOpenTag ++ (" some=attrs".data ++
        ('>' :: ("QUJDRA==".data ++ (certCloseTag ++ "</md>".data)))))))
      = Except.ok (String.mk "QUJDRA==".data) ∧
    ("QUJDRA==".data.all (fun c => !c.isWhitespace) = true) ∧
    containsCertOpenTag "<md>no certificate here</md>".data = false ∧
    extractCertFromMetadata "<md>no certificate here</md>"
      = Except.error "No X509Certificate found in IdP metadata" :=
  ⟨by decide, by decide, by decide, by decide,
    (extractCertFromMetadata_spec.1 "<md><x>data</x> ".data " some=attrs".data
      "QUJDRA==".data "</md>".data (by decide) (by decide) (by decide)
      (by decide)).1,
    (extractCertFromMetadata_spec.1 "<md><x>data</x> ".data " some=attrs".data
      "QUJDRA==".data "</md>".data (by decide) (by decide) (by decide)
      (by decide)).2,
    by decide,
    extractCertFromMetadata_spec.2 "<md>no certificate here</md>" (by decide)⟩
